import Mathlib

/-!
Shallow embedding of the netser-signatures library (signature database and
detector) and proofs about the behaviour its specification describes.

Modelling conventions:
* Python `str` values are lists of Unicode code points (`Str := List Nat`);
  Python `bytes` values are lists of byte values (`Bytes := List Nat`).
* Python floats appear here only as the fixed confidence constants
  0.0, 0.5, 0.7, 0.95, 1.0; they are modelled as rationals, on which
  `max` and equality agree with the float behaviour of these constants.
* `str.lower()` is modelled as ASCII lowercasing of each code point (the
  protocol names compared in this code base are ASCII).
* Optional arguments (`port=None`, `data=None`) are `Option` values, and
  Python truthiness of those arguments is modelled explicitly.
-/

namespace Netser

/-- Unicode strings as lists of code points. -/
abbrev Str := List Nat

/-- Byte strings as lists of byte values. -/
abbrev Bytes := List Nat

/-- Conversion from a Lean string literal to its code-point list. -/
def str (s : String) : Str := s.toList.map Char.toNat

/-- ASCII lowercasing of one code point, modelling Python str.lower. -/
def lowerChar (c : Nat) : Nat := if 65 ≤ c ∧ c ≤ 90 then c + 32 else c

/-- ASCII lowercasing of a string, modelling Python str.lower. -/
def lowerStr (s : Str) : Str := s.map lowerChar

/-- Partially consumed multi-byte UTF-8 sequence inside the decoder:
`need` continuation bytes are still expected, `acc` holds the code-point
bits read so far, and the next byte must lie in `[lo, hi]`. -/
structure Pending where
  need : Nat
  acc : Nat
  lo : Nat
  hi : Nat
deriving DecidableEq

/-- Handling of one byte in the initial decoder state (no sequence pending).
Classification of lead bytes follows the UTF-8 definition used by the Python
decoder: C2..DF start 2-byte sequences, E0..EF 3-byte (with the restricted
second-byte ranges for E0 and ED), F0..F4 4-byte (with the restricted
second-byte ranges for F0 and F4); anything else is an error handled by
emitting `repl`. -/
def startByte (repl : List Nat) (b : Nat) : List Nat × Option Pending :=
  if b < 128 then ([b], none)
  else if 194 ≤ b ∧ b ≤ 223 then ([], some ⟨1, b % 32, 128, 191⟩)
  else if b = 224 then ([], some ⟨2, b % 16, 160, 191⟩)
  else if b = 237 then ([], some ⟨2, b % 16, 128, 159⟩)
  else if 224 ≤ b ∧ b ≤ 239 then ([], some ⟨2, b % 16, 128, 191⟩)
  else if b = 240 then ([], some ⟨3, b % 8, 144, 191⟩)
  else if b = 244 then ([], some ⟨3, b % 8, 128, 143⟩)
  else if 240 ≤ b ∧ b ≤ 244 then ([], some ⟨3, b % 8, 128, 191⟩)
  else (repl, none)

/-- Handling of one byte in an arbitrary decoder state.  An invalid
continuation byte ends the current sequence as an error (one `repl` for the
maximal subpart consumed so far, as the Python decoder does) and the byte is
then reconsidered as a fresh lead byte. -/
def stepByte (repl : List Nat) (st : Option Pending) (b : Nat) :
    List Nat × Option Pending :=
  match st with
  | none => startByte repl b
  | some p =>
    if p.lo ≤ b ∧ b ≤ p.hi then
      if p.need = 1 then ([p.acc * 64 + b % 64], none)
      else ([], some ⟨p.need - 1, p.acc * 64 + b % 64, 128, 191⟩)
    else
      (repl ++ (startByte repl b).1, (startByte repl b).2)

/-- Main loop of the UTF-8 decoder; a sequence still pending at the end of
the input is an error handled by emitting `repl`. -/
def decodeLoop (repl : List Nat) : Option Pending → Bytes → List Nat
  | none, [] => []
  | some _, [] => repl
  | st, b :: bs => (stepByte repl st b).1 ++ decodeLoop repl (stepByte repl st b).2 bs

/-- UTF-8 decoding of a byte string where each maximal invalid subpart is
handled by emitting `repl`. -/
def decodeUtf8With (repl : List Nat) (bs : Bytes) : List Nat :=
  decodeLoop repl none bs

/-- Python bytes.decode with errors set to ignore, as used by
Signature.matches_pattern: invalid sequences are dropped. -/
def decodeUtf8Ignore (bs : Bytes) : List Nat := decodeUtf8With [] bs

/-- Python bytes.decode with errors set to replace, as the specification
words it: each maximal invalid subpart becomes U+FFFD. -/
def decodeUtf8Replace (bs : Bytes) : List Nat := decodeUtf8With [65533] bs

/-- The Signature record of signatures.py. -/
structure Signature where
  name : Str
  port : Int
  protocol : Str
  patterns : List Str
  description : Str
deriving DecidableEq

/-- Signature.__init__: the protocol is lowercased at construction and a
missing or falsy patterns argument becomes the empty list. -/
def Signature.make (name : Str) (port : Int) (protocol : Str)
    (patterns : Option (List Str)) (description : Str) : Signature :=
  { name := name, port := port, protocol := lowerStr protocol,
    patterns := patterns.getD [], description := description }

/-- Signature.matches_port: the port must be equal and the protocols equal
after lowercasing both sides. -/
def Signature.matches_port (s : Signature) (port : Int) (protocol : Str) : Bool :=
  s.port == port && lowerStr s.protocol == lowerStr protocol

/-- Signature.matches_pattern: an empty pattern list never matches;
otherwise the data is decoded as UTF-8 with errors ignored and each pattern
is tested for literal substring containment. -/
def Signature.matches_pattern (s : Signature) (data : Bytes) : Bool :=
  if s.patterns.isEmpty then false
  else s.patterns.any (fun p => decide (p <:+: decodeUtf8Ignore data))

/-- SignatureDatabase.find_by_port: all signatures whose port and protocol
match, in insertion order. -/
def find_by_port (db : List Signature) (port : Int) (protocol : Str) :
    List Signature :=
  db.filter (fun s => s.matches_port port protocol)

/-- SignatureDatabase.find_by_pattern: all signatures that have a non-empty
pattern list and match the data, in insertion order. -/
def find_by_pattern (db : List Signature) (data : Bytes) : List Signature :=
  db.filter (fun s => !s.patterns.isEmpty && s.matches_pattern data)

/-- Record produced by JSON parsing of one persisted signature; a `none`
field models an absent key. -/
structure SigRecord where
  name : Option Str
  port : Option Int
  protocol : Option Str
  patterns : Option (List Str)
  description : Option Str
deriving DecidableEq

/-- Signature.to_dict: serializes all five fields. -/
def Signature.to_dict (s : Signature) : SigRecord :=
  { name := some s.name, port := some s.port, protocol := some s.protocol,
    patterns := some s.patterns, description := some s.description }

/-- Signature.from_dict: a missing name or port raises KeyError (modelled as
`none`); protocol, patterns and description default to tcp, empty list and
empty string, and the constructor is then applied. -/
def Signature.from_dict (r : SigRecord) : Option Signature :=
  match r.name, r.port with
  | some n, some p =>
      some (Signature.make n p (r.protocol.getD (str ("tcp")))
        (some (r.patterns.getD [])) (r.description.getD []))
  | _, _ => none

/-- Loop of SignatureDatabase.load_from_file: records are converted and
appended one by one to the already cleared signature list; the first record
whose conversion raises stops the loop, leaving the partially rebuilt list
as the database state.  The boolean reports whether the loop completed
without an exception. -/
def loadRecords : List SigRecord → List Signature → List Signature × Bool
  | [], acc => (acc, true)
  | r :: rs, acc =>
    match Signature.from_dict r with
    | some s => loadRecords rs (acc ++ [s])
    | none => (acc, false)

/-- SignatureDatabase.load_from_file after JSON parsing: the previous
signature list is discarded up front (so the result does not depend on it),
then the records are converted and appended in order.  The first component
is the signature list of the database after the call, also when the call raised;
the second is whether the call succeeded. -/
def SignatureDatabase.load_from_file (_old : List Signature)
    (rs : List SigRecord) : List Signature × Bool :=
  loadRecords rs []

/-- SignatureDatabase.save_to_file, the data it serializes: every signature
as a dict, in order. -/
def SignatureDatabase.save_data (db : List Signature) : List SigRecord :=
  db.map Signature.to_dict

/-- Confidence constant 0.95 of detect_by_data (pattern match, port not
confirmed). -/
def conf095 : ℚ := ⟨19, 20, by decide, by decide⟩

/-- Confidence constant 0.7 of detect_by_port (port-only match). -/
def conf07 : ℚ := ⟨7, 10, by decide, by decide⟩

/-- Confidence constant 0.5 of the port fallback in detect_by_data. -/
def conf05 : ℚ := ⟨1, 2, by decide, by decide⟩

/-- Equality of the constant with the decimal 0.95 written as a fraction. -/
theorem conf095_eq : conf095 = 19 / 20 := by
  unfold conf095
  rw [Rat.mk'_eq_divInt, Rat.divInt_eq_div]
  norm_num

/-- Equality of the constant with the decimal 0.7 written as a fraction. -/
theorem conf07_eq : conf07 = 7 / 10 := by
  unfold conf07
  rw [Rat.mk'_eq_divInt, Rat.divInt_eq_div]
  norm_num

/-- Equality of the constant with the decimal 0.5 written as a fraction. -/
theorem conf05_eq : conf05 = 1 / 2 := by
  unfold conf05
  rw [Rat.mk'_eq_divInt, Rat.divInt_eq_div]
  norm_num

/-- The DetectionResult record of detector.py. -/
structure DetectionResult where
  port : Int
  protocol : Str
  «matches» : List Signature
  confidence : ℚ
deriving DecidableEq

/-- DetectionResult.__init__: no matches, confidence 0.0. -/
def DetectionResult.init (port : Int) (protocol : Str) : DetectionResult :=
  { port := port, protocol := protocol, «matches» := [], confidence := 0 }

/-- DetectionResult.add_match: appends the signature and raises the scalar
confidence to the maximum of its old value and the supplied one. -/
def DetectionResult.add_match (r : DetectionResult) (s : Signature)
    (confidence : ℚ) : DetectionResult :=
  { r with «matches» := r.«matches» ++ [s],
           confidence := max r.confidence confidence }

/-- DetectionResult.get_best_match: None on no matches, else the first
match in insertion order. -/
def DetectionResult.get_best_match (r : DetectionResult) : Option Signature :=
  match r.«matches» with
  | [] => none
  | s :: _ => some s

/-- Python truthiness of the optional port argument: None and 0 are falsy. -/
def portTruthy : Option Int → Bool
  | none => false
  | some p => p != 0

/-- Python expression port or 0, the port stored on the result. -/
def optPort (o : Option Int) : Int := o.getD 0

/-- Python truthiness of the optional data argument: None and empty bytes
are falsy. -/
def dataTruthy : Option Bytes → Bool
  | none => false
  | some d => !d.isEmpty

/-- Confidence computed in the pattern loop of detect_by_data: 1.0 when the
port argument is truthy and the port and protocol of the match itself also match,
0.95 otherwise. -/
def patternConfidence (port : Option Int) (protocol : Str) (m : Signature) : ℚ :=
  if portTruthy port && m.matches_port (optPort port) protocol then 1 else conf095

/-- SignatureDetector.detect_by_port: every find_by_port result is added
with confidence 0.7. -/
def detect_by_port (db : List Signature) (port : Int) (protocol : Str) :
    DetectionResult :=
  (find_by_port db port protocol).foldl
    (fun r m => r.add_match m conf07) (DetectionResult.init port protocol)

/-- SignatureDetector.detect_by_data: every find_by_pattern result is added
with confidence 1.0 or 0.95; when there was no pattern match and the port
argument is truthy, every find_by_port result is added with confidence
0.5. -/
def detect_by_data (db : List Signature) (data : Bytes) (port : Option Int)
    (protocol : Str) : DetectionResult :=
  if (find_by_pattern db data).isEmpty && portTruthy port then
    (find_by_port db (optPort port) protocol).foldl
      (fun r m => r.add_match m conf05)
      ((find_by_pattern db data).foldl
        (fun r m => r.add_match m (patternConfidence port protocol m))
        (DetectionResult.init (optPort port) protocol))
  else
    (find_by_pattern db data).foldl
      (fun r m => r.add_match m (patternConfidence port protocol m))
      (DetectionResult.init (optPort port) protocol)

/-- SignatureDetector.detect: detect_by_data when the data argument is
truthy, else detect_by_port. -/
def detect (db : List Signature) (port : Int) (protocol : Str)
    (data : Option Bytes) : DetectionResult :=
  if dataTruthy data then detect_by_data db (data.getD []) (some port) protocol
  else detect_by_port db port protocol

/-- One query dict given to detect_multiple; a `none` field models an
absent key. -/
structure Query where
  port : Option Int
  protocol : Option Str
  data : Option Bytes

/-- SignatureDetector.detect_multiple: queries whose port is absent or
falsy are skipped, the rest are run through detect in order with the
protocol defaulting to tcp. -/
def detect_multiple (db : List Signature) (qs : List Query) :
    List DetectionResult :=
  qs.foldl
    (fun acc q =>
      if portTruthy q.port then
        acc ++ [detect db (optPort q.port) (q.protocol.getD (str ("tcp"))) q.data]
      else acc)
    []

/-- Default signature set loaded by SignatureDatabase.__init__. -/
def defaultSignatures : List Signature :=
  [Signature.make (str ("HTTP")) 80 (str ("tcp"))
     (some [str ("HTTP/1.1"), str ("HTTP/1.0"), str ("GET "), str ("POST ")])
     (str ("Hypertext Transfer Protocol")),
   Signature.make (str ("HTTPS")) 443 (str ("tcp"))
     (some [str ("TLS"), str ("SSL")])
     (str ("Secure HTTP over TLS/SSL")),
   Signature.make (str ("SSH")) 22 (str ("tcp"))
     (some [str ("SSH-2.0"), str ("SSH-1.99")])
     (str ("Secure Shell Protocol")),
   Signature.make (str ("FTP")) 21 (str ("tcp"))
     (some [str ("220 "), str ("USER "), str ("PASS ")])
     (str ("File Transfer Protocol")),
   Signature.make (str ("SMTP")) 25 (str ("tcp"))
     (some [str ("220 "), str ("EHLO "), str ("HELO ")])
     (str ("Simple Mail Transfer Protocol")),
   Signature.make (str ("DNS")) 53 (str ("udp")) (some [])
     (str ("Domain Name System")),
   Signature.make (str ("MySQL")) 3306 (str ("tcp")) (some [])
     (str ("MySQL Database")),
   Signature.make (str ("PostgreSQL")) 5432 (str ("tcp")) (some [])
     (str ("PostgreSQL Database")),
   Signature.make (str ("Redis")) 6379 (str ("tcp"))
     (some [str ("+PONG"), str ("-ERR")])
     (str ("Redis In-Memory Database")),
   Signature.make (str ("MongoDB")) 27017 (str ("tcp")) (some [])
     (str ("MongoDB NoSQL Database"))]

/-!
Helper lemmas shared by the claim theorems below.
-/

/-- Folding a sequence of add_match calls appends the signatures in call
order and takes the running maximum of the supplied confidences. -/
theorem foldl_add_match (calls : List (Signature × ℚ)) (r : DetectionResult) :
    calls.foldl (fun a mc => a.add_match mc.1 mc.2) r =
      { port := r.port, protocol := r.protocol,
        «matches» := r.«matches» ++ calls.map Prod.fst,
        confidence := (calls.map Prod.snd).foldl max r.confidence } := by
  induction calls generalizing r with
  | nil => simp
  | cons mc cs ih =>
      rw [List.foldl_cons, ih]
      simp [DetectionResult.add_match, List.append_assoc]

/-- Specialization of foldl_add_match to a fold that uses one confidence
function of the match, as the loops in the detector do. -/
theorem foldl_add_match_fn (f : Signature → ℚ) (ms : List Signature)
    (r : DetectionResult) :
    ms.foldl (fun a m => a.add_match m (f m)) r =
      { port := r.port, protocol := r.protocol,
        «matches» := r.«matches» ++ ms,
        confidence := (ms.map f).foldl max r.confidence } := by
  have h : ms.foldl (fun a m => a.add_match m (f m)) r =
      (ms.map (fun m => (m, f m))).foldl (fun a mc => a.add_match mc.1 mc.2) r := by
    induction ms generalizing r with
    | nil => rfl
    | cons m ms ih => simp [List.foldl_cons, ih]
  rw [h, foldl_add_match]
  simp [List.map_map, Function.comp_def]

/-- The starting value is bounded by a max fold. -/
theorem le_foldl_max (l : List ℚ) (a : ℚ) : a ≤ l.foldl max a := by
  induction l generalizing a with
  | nil => exact le_refl a
  | cons x xs ih => exact le_trans (le_max_left a x) (ih (max a x))

/-- Every list element is bounded by a max fold. -/
theorem mem_le_foldl_max (l : List ℚ) (a x : ℚ) (hx : x ∈ l) :
    x ≤ l.foldl max a := by
  induction l generalizing a with
  | nil => cases hx
  | cons y ys ih =>
      rcases List.mem_cons.mp hx with h | h
      · subst h
        exact le_trans (le_max_right a x) (le_foldl_max ys (max a x))
      · exact ih (max a y) h

/-- A max fold yields either the starting value or a list element. -/
theorem foldl_max_eq_start_or_mem (l : List ℚ) (a : ℚ) :
    l.foldl max a = a ∨ l.foldl max a ∈ l := by
  induction l generalizing a with
  | nil => exact Or.inl rfl
  | cons x xs ih =>
      rcases ih (max a x) with h | h
      · rcases max_cases a x with ⟨he, _⟩ | ⟨he, _⟩
        · exact Or.inl (by rw [List.foldl_cons, h, he])
        · exact Or.inr (by rw [List.foldl_cons, h, he]; exact List.mem_cons_self x xs)
      · exact Or.inr (List.mem_cons_of_mem x h)

/-- ASCII lowercasing is idempotent on a code point. -/
theorem lowerChar_idem (c : Nat) : lowerChar (lowerChar c) = lowerChar c := by
  unfold lowerChar
  split
  · split
    · omega
    · rfl
  · rfl

/-- ASCII lowercasing is idempotent on a string. -/
theorem lowerStr_idem (s : Str) : lowerStr (lowerStr s) = lowerStr s := by
  unfold lowerStr
  rw [List.map_map]
  exact List.map_congr_left (fun c _ => lowerChar_idem c)

/-- Well-formedness invariant established by Signature.__init__: the stored
protocol is already lowercase. -/
def Signature.Wf (s : Signature) : Prop := lowerStr s.protocol = s.protocol

instance (s : Signature) : Decidable s.Wf := by
  unfold Signature.Wf
  exact inferInstance

/-- Every signature built by the constructor satisfies the invariant. -/
theorem Signature.make_wf (name : Str) (port : Int) (protocol : Str)
    (patterns : Option (List Str)) (description : Str) :
    (Signature.make name port protocol patterns description).Wf := by
  unfold Signature.Wf Signature.make
  exact lowerStr_idem protocol

/-- Boolean matches_pattern holds exactly when the pattern list is
non-empty and some pattern is a substring of the ignore-decoded data. -/
theorem matches_pattern_iff (s : Signature) (data : Bytes) :
    s.matches_pattern data = true ↔
      s.patterns ≠ [] ∧ ∃ p ∈ s.patterns, p <:+: decodeUtf8Ignore data := by
  unfold Signature.matches_pattern
  by_cases hp : s.patterns.isEmpty
  · have : s.patterns = [] := List.isEmpty_iff.mp hp
    simp [hp, this]
  · have hne : s.patterns ≠ [] := by
      intro he
      exact hp (by simp [he])
    simp [hp, hne, List.any_eq_true]

/-- Membership in a find_by_pattern result. -/
theorem mem_find_by_pattern (db : List Signature) (data : Bytes)
    (s : Signature) :
    s ∈ find_by_pattern db data ↔
      s ∈ db ∧ s.patterns ≠ [] ∧ ∃ p ∈ s.patterns, p <:+: decodeUtf8Ignore data := by
  unfold find_by_pattern
  rw [List.mem_filter]
  constructor
  · rintro ⟨hdb, hb⟩
    rcases Bool.and_eq_true_iff.mp hb with ⟨_, hmp⟩
    rcases (matches_pattern_iff s data).mp hmp with ⟨hne, hex⟩
    exact ⟨hdb, hne, hex⟩
  · rintro ⟨hdb, hne, hex⟩
    refine ⟨hdb, Bool.and_eq_true_iff.mpr ⟨?_, (matches_pattern_iff s data).mpr ⟨hne, hex⟩⟩⟩
    simp [List.isEmpty_iff, hne]

/-- State of a fresh DetectionResult after a sequence of add_match calls
with the given signatures and confidences. -/
def runCalls (port : Int) (protocol : Str) (calls : List (Signature × ℚ)) :
    DetectionResult :=
  calls.foldl (fun a mc => a.add_match mc.1 mc.2) (DetectionResult.init port protocol)

/-- Modelled from the spec: the DetectionResult that the data model of the
specification predicts for a sequence of per-match confidence assignments —
matches in discovery order, the scalar confidence the maximum of every
per-match confidence supplied (0.0 when none was). -/
def specResult (port : Int) (protocol : Str) (calls : List (Signature × ℚ)) :
    DetectionResult :=
  { port := port, protocol := protocol, «matches» := calls.map Prod.fst,
    confidence := (calls.map Prod.snd).foldl max 0 }

/-- Modelled from the spec: the per-pattern-match confidence of
detect_by_data as §4.2 words it, with the amendment that "a port was
supplied" means a truthy (non-None, nonzero) port: 1.0 when such a port
was supplied and the port of the match itself equals it and its protocol equals the
supplied protocol case-insensitively, else 0.95. -/
def specPatternConf (port : Option Int) (protocol : Str) (m : Signature) : ℚ :=
  match port with
  | some p =>
      if p ≠ 0 ∧ m.port = p ∧ lowerStr m.protocol = lowerStr protocol then 1
      else conf095
  | none => conf095

/-- Code and spec wording agree on the per-pattern-match confidence. -/
theorem patternConfidence_eq_spec (port : Option Int) (protocol : Str)
    (m : Signature) :
    patternConfidence port protocol m = specPatternConf port protocol m := by
  cases port with
  | none => rfl
  | some p =>
      unfold patternConfidence specPatternConf portTruthy optPort
      have hiff : ((p != 0) && m.matches_port p protocol) = true ↔
          (p ≠ 0 ∧ m.port = p ∧ lowerStr m.protocol = lowerStr protocol) := by
        simp [Signature.matches_port, and_assoc]
      simp only [Option.getD]
      exact if_congr hiff rfl rfl

/-- The constant 0.95 is at most 1. -/
theorem conf095_le_one : conf095 ≤ 1 := by
  rw [conf095_eq]
  norm_num

/-- The pattern-loop confidence is at least 0.95. -/
theorem conf095_le_patternConfidence (port : Option Int) (protocol : Str)
    (m : Signature) : conf095 ≤ patternConfidence port protocol m := by
  unfold patternConfidence
  split
  · exact conf095_le_one
  · exact le_refl conf095

/-- Accumulating fold of a filtered map, as the detect_multiple loop does. -/
theorem foldl_append_if {α β : Type} (p : α → Bool) (f : α → β)
    (qs : List α) (acc : List β) :
    qs.foldl (fun acc q => if p q then acc ++ [f q] else acc) acc =
      acc ++ (qs.filter p).map f := by
  induction qs generalizing acc with
  | nil => simp
  | cons q qs ih =>
      by_cases hq : p q <;>
        simp [List.filter_cons, hq, ih, List.append_assoc]

/-- Branch of detect_by_data taken when there is at least one pattern
match: only the pattern loop runs. -/
theorem detect_by_data_of_pattern (db : List Signature) (data : Bytes)
    (port : Option Int) (protocol : Str) (h : find_by_pattern db data ≠ []) :
    detect_by_data db data port protocol =
      (find_by_pattern db data).foldl
        (fun r m => r.add_match m (patternConfidence port protocol m))
        (DetectionResult.init (optPort port) protocol) := by
  unfold detect_by_data
  have he : (find_by_pattern db data).isEmpty = false := by
    simp [List.isEmpty_iff, h]
  simp [he]

/-- Branch of detect_by_data taken when the port argument is falsy: only
the pattern loop runs. -/
theorem detect_by_data_of_falsy_port (db : List Signature) (data : Bytes)
    (port : Option Int) (protocol : Str) (h : portTruthy port = false) :
    detect_by_data db data port protocol =
      (find_by_pattern db data).foldl
        (fun r m => r.add_match m (patternConfidence port protocol m))
        (DetectionResult.init (optPort port) protocol) := by
  unfold detect_by_data
  simp [h]

/-- Branch of detect_by_data taken when no pattern matched and the port
argument is truthy: the port fallback runs from the fresh result. -/
theorem detect_by_data_fallback (db : List Signature) (data : Bytes)
    (port : Option Int) (protocol : Str) (h1 : find_by_pattern db data = [])
    (h2 : portTruthy port = true) :
    detect_by_data db data port protocol =
      (find_by_port db (optPort port) protocol).foldl
        (fun r m => r.add_match m conf05)
        (DetectionResult.init (optPort port) protocol) := by
  unfold detect_by_data
  simp [h1, h2]

/-!
Concrete signatures, records and data used by counterexamples and
witnesses.
-/

/-- Signature on port 1 with the single pattern AB. -/
def sigAB : Signature :=
  Signature.make (str ("AB-SIG")) 1 (str ("tcp")) (some [str ("AB")]) []

/-- Signature on port 7 with the single pattern A. -/
def sigB : Signature :=
  Signature.make (str ("B-SIG")) 7 (str ("tcp")) (some [str ("A")]) []

/-- Signature on port 0 with the single pattern A. -/
def sigZ : Signature :=
  Signature.make (str ("Z-SIG")) 0 (str ("tcp")) (some [str ("A")]) []

/-- Signature on port 0 with no patterns. -/
def sigW0 : Signature :=
  Signature.make (str ("W-SIG")) 0 (str ("tcp")) none []

/-- Signature on port 9 with no patterns. -/
def sigW9 : Signature :=
  Signature.make (str ("W9-SIG")) 9 (str ("tcp")) none []

/-- Signature on port 80 with the single pattern HTTP. -/
def sigH : Signature :=
  Signature.make (str ("HTTP")) 80 (str ("tcp")) (some [str ("HTTP")]) []

/-- Signature on port 5 whose pattern list contains the empty string. -/
def sigE : Signature :=
  Signature.make (str ("E-SIG")) 5 (str ("tcp")) (some [[]]) []

/-- Well-formed record with name A and port 1 and nothing else. -/
def recA : SigRecord :=
  { name := some (str ("A")), port := some 1, protocol := none,
    patterns := none, description := none }

/-- Record missing the required name field. -/
def recBad : SigRecord :=
  { name := none, port := some 2, protocol := none,
    patterns := none, description := none }

/-- Signature that from_dict builds out of recA. -/
def sigA1 : Signature :=
  Signature.make (str ("A")) 1 (str ("tcp")) (some []) []

/-!
Claim C1.
-/

/-- Claim C1, counterexample: matches_pattern decodes with errors ignored,
not replaced.  On the byte input A 0xFF B the signature with pattern AB is
returned by find_by_pattern, yet no pattern of it is a substring of the
replacement-decoded text A U+FFFD B, so the claimed equivalence with
replacement decoding is false at this input. -/
theorem C1_counterexample :
    find_by_pattern [sigAB] [65, 255, 66] = [sigAB] ∧
    sigAB.patterns ≠ [] ∧
    ¬ ∃ p ∈ sigAB.patterns, p <:+: decodeUtf8Replace [65, 255, 66] := by
  decide

/-- Claim C1, amended: for every byte input, find_by_pattern decodes the
sample as UTF-8 with undecodable byte sequences dropped (errors ignored,
never raising), and an entry is returned iff its pattern list is non-empty
and at least one of its patterns is a literal substring of that
ignore-decoded text; the result lists entries in insertion order. -/
theorem C1_find_by_pattern_ignore (db : List Signature) (data : Bytes) :
    List.Sublist (find_by_pattern db data) db ∧
    ∀ s : Signature, s ∈ find_by_pattern db data ↔
      s ∈ db ∧ s.patterns ≠ [] ∧
        ∃ p ∈ s.patterns, p <:+: decodeUtf8Ignore data := by
  exact ⟨List.filter_sublist db, fun s => mem_find_by_pattern db data s⟩

/-!
Claim C5.
-/

/-- Claim C5: after any sequence of add_match calls on a fresh result,
get_best_match returns the first match in insertion (discovery) order —
whatever the confidences supplied, so also when a later match has a
strictly higher confidence — and none when no match was added. -/
theorem C5_get_best_match (port : Int) (protocol : Str)
    (calls : List (Signature × ℚ)) :
    (runCalls port protocol calls).«matches» = calls.map Prod.fst ∧
    (runCalls port protocol calls).get_best_match = (calls.map Prod.fst).head? := by
  unfold runCalls
  rw [foldl_add_match]
  constructor
  · simp [DetectionResult.init]
  · cases hc : calls.map Prod.fst with
    | nil => simp [DetectionResult.get_best_match, DetectionResult.init, hc]
    | cons a l => simp [DetectionResult.get_best_match, DetectionResult.init, hc]

/-!
Claim C9.
-/

/-- Claim C9: detect_multiple silently skips every query whose port is
absent or falsy and returns exactly the detect results of the remaining
queries, in their input order, with the protocol defaulting to tcp. -/
theorem C9_detect_multiple (db : List Signature) (qs : List Query) :
    detect_multiple db qs =
      (qs.filter (fun q => portTruthy q.port)).map
        (fun q => detect db (optPort q.port) (q.protocol.getD (str ("tcp"))) q.data) := by
  unfold detect_multiple
  rw [foldl_append_if]
  simp

/-!
Claim C2.
-/

/-- Claim C2, counterexample: a supplied port of 0 is falsy in the guard,
so a pattern match whose own port is 0 and whose protocol equals the
supplied protocol is added with confidence 0.95, not the claimed 1.0 (with
one single match the scalar confidence equals the confidence that match
was added with). -/
theorem C2_counterexample :
    (detect_by_data [sigZ] [65] (some 0) (str ("tcp"))).«matches» = [sigZ] ∧
    sigZ.port = 0 ∧
    lowerStr sigZ.protocol = lowerStr (str ("tcp")) ∧
    (detect_by_data [sigZ] [65] (some 0) (str ("tcp"))).confidence = conf095 ∧
    conf095 ≠ 1 := by
  decide

/-- Claim C2, amended: whenever pattern matching found at least one match,
detect_by_data returns exactly the result the data model of the spec predicts
for the pattern matches, each paired with confidence 1.0 if a truthy
(non-None, nonzero) port was supplied and the port of that signature equals
it and its protocol equals the supplied protocol case-insensitively, and
0.95 otherwise. -/
theorem C2_pattern_confidences (db : List Signature) (data : Bytes)
    (port : Option Int) (protocol : Str) (h : find_by_pattern db data ≠ []) :
    detect_by_data db data port protocol =
      specResult (optPort port) protocol
        ((find_by_pattern db data).map
          (fun m => (m, specPatternConf port protocol m))) := by
  rw [detect_by_data_of_pattern db data port protocol h, foldl_add_match_fn]
  unfold specResult DetectionResult.init
  simp only [List.map_map, Function.comp_def, List.nil_append]
  congr 1
  · simp
  · exact congrArg (List.foldl max 0)
      (List.map_congr_left fun m _ => patternConfidence_eq_spec port protocol m)

/-- Claim C2, witness: on a one-signature database whose signature matches
both the pattern and the supplied port 7, the theorem applies and predicts
the pattern-phase result. -/
theorem C2_witness :
    find_by_pattern [sigB] [65] ≠ [] ∧
    detect_by_data [sigB] [65] (some 7) (str ("tcp")) =
      specResult (optPort (some 7)) (str ("tcp"))
        ((find_by_pattern [sigB] [65]).map
          (fun m => (m, specPatternConf (some 7) (str ("tcp")) m))) :=
  ⟨by decide, C2_pattern_confidences [sigB] [65] (some 7) (str ("tcp")) (by decide)⟩

/-!
Claim C3.
-/

/-- Claim C3, counterexample: with zero pattern matches and a supplied
port of 0 the claim predicts the port fallback fires and the port-0
signature is added with confidence 0.5; the code treats the falsy port 0
as no port and adds nothing. -/
theorem C3_counterexample :
    find_by_pattern [sigW0] [88] = [] ∧
    find_by_port [sigW0] 0 (str ("tcp")) = [sigW0] ∧
    (detect_by_data [sigW0] [88] (some 0) (str ("tcp"))).«matches» = [] ∧
    (detect_by_data [sigW0] [88] (some 0) (str ("tcp"))).confidence = 0 := by
  decide

/-- Claim C3, amended: the port-based fallback fires exactly when pattern
matching produced zero matches and a truthy (non-None, nonzero) port was
supplied — then every find_by_port result is added with confidence exactly
0.5; if any pattern match exists, or the port argument is absent or 0, the
matches are exactly the pattern matches and no fallback match is added. -/
theorem C3_port_fallback (db : List Signature) (data : Bytes)
    (port : Option Int) (protocol : Str) :
    (find_by_pattern db data = [] ∧ portTruthy port = true →
      detect_by_data db data port protocol =
        specResult (optPort port) protocol
          ((find_by_port db (optPort port) protocol).map (fun m => (m, conf05)))) ∧
    (find_by_pattern db data ≠ [] ∨ portTruthy port = false →
      (detect_by_data db data port protocol).«matches» = find_by_pattern db data) := by
  constructor
  · rintro ⟨h1, h2⟩
    rw [detect_by_data_fallback db data port protocol h1 h2, foldl_add_match_fn]
    unfold specResult DetectionResult.init
    simp [List.map_map, Function.comp_def]
  · intro h
    rcases h with h | h
    · rw [detect_by_data_of_pattern db data port protocol h, foldl_add_match_fn]
      simp [DetectionResult.init]
    · rw [detect_by_data_of_falsy_port db data port protocol h, foldl_add_match_fn]
      simp [DetectionResult.init]

/-- Claim C3, witness: a database holding only a pattern-less signature on
port 9, probed with non-matching data and port 9: the fallback fires and
adds that signature with confidence 0.5. -/
theorem C3_witness :
    detect_by_data [sigW9] [88] (some 9) (str ("tcp")) =
      specResult (optPort (some 9)) (str ("tcp"))
        ((find_by_port [sigW9] (optPort (some 9)) (str ("tcp"))).map
          (fun m => (m, conf05))) :=
  (C3_port_fallback [sigW9] [88] (some 9) (str ("tcp"))).1 ⟨by decide, by decide⟩

/-!
Claim C10.
-/

/-- Claim C10: a signature whose pattern list contains the empty string
matches every byte sample, so find_by_pattern returns it on every query
and detect_by_data lists it among the matches, at a per-match confidence
of at least 0.95 (0.95 or 1.0), which the scalar confidence reflects. -/
theorem C10_empty_pattern (db : List Signature) (s : Signature)
    (data : Bytes) (port : Option Int) (protocol : Str)
    (hs : s ∈ db) (hp : [] ∈ s.patterns) :
    s.matches_pattern data = true ∧
    s ∈ find_by_pattern db data ∧
    s ∈ (detect_by_data db data port protocol).«matches» ∧
    conf095 ≤ (detect_by_data db data port protocol).confidence := by
  have hne : s.patterns ≠ [] := by
    intro he
    rw [he] at hp
    cases hp
  have hmp : s.matches_pattern data = true :=
    (matches_pattern_iff s data).mpr ⟨hne, [], hp, List.nil_infix⟩
  have hfp : s ∈ find_by_pattern db data :=
    (mem_find_by_pattern db data s).mpr ⟨hs, hne, [], hp, List.nil_infix⟩
  have hpm : find_by_pattern db data ≠ [] := by
    intro he
    rw [he] at hfp
    cases hfp
  rw [detect_by_data_of_pattern db data port protocol hpm, foldl_add_match_fn]
  refine ⟨hmp, hfp, by simpa [DetectionResult.init] using hfp, ?_⟩
  have h1 : patternConfidence port protocol s ∈
      (find_by_pattern db data).map (patternConfidence port protocol) :=
    List.mem_map_of_mem (patternConfidence port protocol) hfp
  exact le_trans (conf095_le_patternConfidence port protocol s)
    (mem_le_foldl_max _ _ _ h1)

/-- Claim C10, witness: the empty-string-pattern signature is returned on
a probe that shares no byte with any pattern text. -/
theorem C10_witness :
    sigE.matches_pattern [66] = true ∧
    sigE ∈ find_by_pattern [sigE] [66] ∧
    sigE ∈ (detect_by_data [sigE] [66] none (str ("tcp"))).«matches» ∧
    conf095 ≤ (detect_by_data [sigE] [66] none (str ("tcp"))).confidence :=
  C10_empty_pattern [sigE] sigE [66] none (str ("tcp")) (by decide) (by decide)

/-!
Claim C4.
-/

/-- Characterization of loadRecords: the converted prefix up to the first
failing record is appended, and the flag reports whether every record
converted. -/
theorem loadRecords_eq (rs : List SigRecord) (acc : List Signature) :
    loadRecords rs acc =
      (acc ++ (rs.takeWhile
          (fun r => (Signature.from_dict r).isSome)).filterMap Signature.from_dict,
        rs.all (fun r => (Signature.from_dict r).isSome)) := by
  induction rs generalizing acc with
  | nil => simp [loadRecords]
  | cons r rs ih =>
      cases hr : Signature.from_dict r with
      | some s =>
          simp [loadRecords, hr, ih, List.takeWhile_cons, List.append_assoc]
      | none =>
          simp [loadRecords, hr, List.takeWhile_cons]

/-- Claim C4, counterexample: importing a good record followed by a record
missing the required name raises (the flag is false) but leaves the
database partially replaced — the prior signatures are gone and the good
record has its signature in the collection. -/
theorem C4_counterexample :
    (SignatureDatabase.load_from_file defaultSignatures [recA, recBad]).2 = false ∧
    (SignatureDatabase.load_from_file defaultSignatures [recA, recBad]).1 = [sigA1] ∧
    [sigA1] ≠ defaultSignatures ∧
    ([sigA1] : List Signature) ≠ [] := by
  decide

/-- Claim C4, amended: when some record lacks the required name or port
the import fails with a hard error and no complete import happens, but the
database IS left in a partially replaced state: the prior signatures are
discarded regardless, and exactly the converted records preceding the
first malformed one make up the collection afterwards. -/
theorem C4_load_partial (old : List Signature) (rs : List SigRecord) :
    SignatureDatabase.load_from_file old rs =
      ((rs.takeWhile
          (fun r => (Signature.from_dict r).isSome)).filterMap Signature.from_dict,
        rs.all (fun r => (Signature.from_dict r).isSome)) := by
  unfold SignatureDatabase.load_from_file
  rw [loadRecords_eq]
  simp

/-!
Claim C6.
-/

/-- Claim C6: after any sequence of add_match calls whose supplied
confidences all lie in the confidence domain of the spec (non-negative scalars;
all detector-supplied constants do), the scalar confidence equals the
maximum of the supplied values — it is one of them and bounds them all —
and equals 0.0 when no match was added; in particular detect_by_port on a
port with no matching signature yields zero matches and confidence 0.0. -/
theorem C6_confidence_is_max (port : Int) (protocol : Str)
    (calls : List (Signature × ℚ)) (hnn : ∀ mc ∈ calls, 0 ≤ mc.2) :
    (calls = [] → (runCalls port protocol calls).confidence = 0) ∧
    (calls ≠ [] →
      (∃ mc ∈ calls, (runCalls port protocol calls).confidence = mc.2) ∧
      ∀ mc ∈ calls, mc.2 ≤ (runCalls port protocol calls).confidence) ∧
    ∀ (db : List Signature) (q : Int) (pr : Str),
      find_by_port db q pr = [] →
        (detect_by_port db q pr).«matches» = [] ∧
        (detect_by_port db q pr).confidence = 0 := by
  unfold runCalls
  rw [foldl_add_match]
  refine ⟨?_, ?_, ?_⟩
  · intro hc
    subst hc
    rfl
  · intro hc
    constructor
    · rcases foldl_max_eq_start_or_mem (calls.map Prod.snd)
          (DetectionResult.init port protocol).confidence with h0 | hm
      · cases calls with
        | nil => exact absurd rfl hc
        | cons mc cs =>
            refine ⟨mc, List.mem_cons_self mc cs, le_antisymm ?_ ?_⟩
            · rw [h0]
              exact hnn mc (List.mem_cons_self mc cs)
            · exact mem_le_foldl_max _ _ _
                (List.mem_map_of_mem Prod.snd (List.mem_cons_self mc cs))
      · rcases List.mem_map.mp hm with ⟨mc, hmc, he⟩
        exact ⟨mc, hmc, he.symm⟩
    · intro mc hmc
      exact mem_le_foldl_max _ _ _ (List.mem_map_of_mem Prod.snd hmc)
  · intro db q pr hq
    unfold detect_by_port
    rw [hq]
    exact ⟨rfl, rfl⟩

/-- Claim C6, witness: two calls with confidences 0.5 then 1.0 leave the
scalar confidence equal to one of the supplied values, necessarily their
maximum. -/
theorem C6_witness :
    ∃ mc ∈ [(sigB, conf05), (sigB, 1)],
      (runCalls 1 (str ("tcp")) [(sigB, conf05), (sigB, 1)]).confidence = mc.2 :=
  (((C6_confidence_is_max 1 (str ("tcp")) [(sigB, conf05), (sigB, 1)]
    (by decide)).2.1 (by decide)).1)

/-!
Claim C7.
-/

/-- Deserializing a serialized signature restores it exactly, given the
protocol-lowercase invariant of the constructor. -/
theorem from_dict_to_dict (s : Signature) (hs : s.Wf) :
    Signature.from_dict s.to_dict = some s := by
  unfold Signature.from_dict Signature.to_dict Signature.make
  cases s with
  | mk name port protocol patterns description =>
      unfold Signature.Wf at hs
      simp_all

/-- Claim C7: importing the exported record list of any database state
whose signatures satisfy the constructor invariant succeeds and yields the
same ordered sequence of signatures — name, port, protocol, patterns and
description all equal entry by entry. -/
theorem C7_roundtrip (sigs : List Signature) (h : ∀ s ∈ sigs, s.Wf) :
    SignatureDatabase.load_from_file sigs (SignatureDatabase.save_data sigs) =
      (sigs, true) := by
  unfold SignatureDatabase.load_from_file SignatureDatabase.save_data
  have key : ∀ (l : List Signature), (∀ s ∈ l, s.Wf) → ∀ acc : List Signature,
      loadRecords (l.map Signature.to_dict) acc = (acc ++ l, true) := by
    intro l
    induction l with
    | nil =>
        intro _ acc
        simp [loadRecords]
    | cons s ss ih =>
        intro hl acc
        rw [List.map_cons]
        simp only [loadRecords, from_dict_to_dict s (hl s (List.mem_cons_self s ss))]
        rw [ih (fun t ht => hl t (List.mem_cons_of_mem s ht)) (acc ++ [s])]
        simp [List.append_assoc]
  simpa using key sigs h []

/-- Claim C7, witness: round trip of a one-signature database state. -/
theorem C7_witness :
    SignatureDatabase.load_from_file [sigB] (SignatureDatabase.save_data [sigB]) =
      ([sigB], true) :=
  C7_roundtrip [sigB] (by decide)

/-!
Claim C8.
-/

/-- Claim C8, counterexample: empty byte data is supplied but falsy, so
detect routes to detect_by_port (confidence 0.7 here) and not to
detect_by_data (which would fall back to the port tier 0.5 here), refuting
the claim that supplied data always routes to detect_by_data. -/
theorem C8_counterexample :
    detect [sigH] 80 (str ("tcp")) (some []) ≠
      detect_by_data [sigH] [] (some 80) (str ("tcp")) ∧
    (detect [sigH] 80 (str ("tcp")) (some [])).confidence = conf07 ∧
    (detect_by_data [sigH] [] (some 80) (str ("tcp"))).confidence = conf05 := by
  decide

/-- Claim C8, amended: detect returns exactly the detect_by_data result
whenever non-empty data is supplied — whatever the port, 0 included — and
exactly the detect_by_port result when data is absent or empty. -/
theorem C8_dispatch (db : List Signature) (port : Int) (protocol : Str)
    (data : Option Bytes) :
    (∀ d : Bytes, data = some d → d ≠ [] →
      detect db port protocol data = detect_by_data db d (some port) protocol) ∧
    (data = none ∨ data = some [] →
      detect db port protocol data = detect_by_port db port protocol) := by
  constructor
  · intro d hd hne
    subst hd
    unfold detect
    have ht : dataTruthy (some d) = true := by
      simp [dataTruthy, List.isEmpty_iff, hne]
    simp [ht]
  · intro hd
    rcases hd with h | h <;> subst h <;> simp [detect, dataTruthy]

/-- Claim C8, witness: a non-empty probe on port 80 routes through
detect_by_data. -/
theorem C8_witness :
    detect [sigH] 80 (str ("tcp")) (some [72]) =
      detect_by_data [sigH] [72] (some 80) (str ("tcp")) :=
  (C8_dispatch [sigH] 80 (str ("tcp")) (some [72])).1 [72] rfl (by decide)

end Netser
